import Mathlib

/-!
Verification of the multimodal-chat-assistant backend core against its
natural-language specification.

The development shallowly embeds the two subsystems the specification covers:

* the retrieval core of `backend/app/services/rag_service.py`
  (`chunk_text`, `upsert_document`, `search_similar`, `delete_user_vectors`),
* the token-verification core of `backend/app/utils/jwt_verify.py`
  (`fetch_jwks`, `get_signing_key`, `verify_jwt`, `get_current_user`).

Python strings are embedded as `List Char`; Python `int` indices as `Int`
(Python integers are signed and slice indices may go negative); Python
dictionaries as insertion-ordered association lists with last-write-wins
update; exceptions as `Except`/`Option`.  External collaborators (the
embedding model, the vector index's scoring, the JWKS endpoint, the wall
clock) are passed in as explicit parameters.  Cryptographic signatures are
modelled symbolically: a signature value records the algorithm and the key
material it was produced with, and verification succeeds exactly when both
match the algorithm and key used to verify.
-/

namespace MMChat

/-! ### Python string primitives

`pySliceIdx` clamps a Python slice index the way CPython does: negative
indices count from the end, and both ends are clamped to `[0, n]`. -/

def pySliceIdx (n : Nat) (i : Int) : Nat :=
  if i < 0 then (max 0 ((n : Int) + i)).toNat else min i.toNat n

/-- Python slice `l[a:b]`. -/
def pySlice (l : List Char) (a b : Int) : List Char :=
  (l.take (pySliceIdx l.length b)).drop (pySliceIdx l.length a)

/-- Python indexing `l[i]` (negative indices wrap).  Out-of-range access,
which would raise `IndexError` in Python, is never reached under the guards
of the code modelled here; the default value is arbitrary. -/
def pyIndex (l : List Char) (i : Int) : Char :=
  if i < 0 then l.getD ((l.length : Int) + i).toNat ' ' else l.getD i.toNat ' '

/-- Python `str.rfind(c)`: index of the last occurrence of `c`, `-1` if none. -/
def pyRfind : List Char → Char → Int
  | [], _ => -1
  | x :: xs, c =>
    let r := pyRfind xs c
    if 0 ≤ r then r + 1 else if x = c then 0 else -1

/-- The ASCII whitespace characters stripped by Python `str.strip()`. -/
def pyIsSpace (c : Char) : Bool :=
  c = ' ' ∨ c = '\t' ∨ c = '\n' ∨ c = '\r' ∨ c = '\x0b' ∨ c = '\x0c'

/-- Python `str.strip()`. -/
def pyStrip (l : List Char) : List Char :=
  ((l.dropWhile pyIsSpace).reverse.dropWhile pyIsSpace).reverse

/-! ### `chunk_text` (rag_service.py lines 46-79)

The separator list of line 69 and the window-end adjustment of lines 68-74.
`chunkEnd` computes the value the variable `end` has when the chunk is
appended: `end = start + chunk_size`, then, if the character just past the
window exists and is not a separator, backtrack to the last space of the
window provided its index is positive. -/

def sepChars : List Char := [' ', '\n', '\t', '.', ',']

def chunkEnd (text : List Char) (size start : Int) : Int :=
  let e := start + size
  if e < (text.length : Int) ∧ pyIndex text e ∉ sepChars then
    let ls := pyRfind (pySlice text start e) ' '
    if 0 < ls then start + ls else e
  else e

/-- The `while start < len(text)` loop of `chunk_text`, with an explicit
fuel bound.  `none` means the fuel was exhausted while the loop condition
still held — i.e. the loop performs more than `fuel` iterations. -/
def chunkLoop (text : List Char) (size ov : Int) : Nat → Int → Option (List (List Char))
  | 0, start => if start < (text.length : Int) then none else some []
  | fuel + 1, start =>
    if start < (text.length : Int) then
      let e := chunkEnd text size start
      (chunkLoop text size ov fuel (e - ov)).map
        (fun rest => pyStrip (pySlice text start e) :: rest)
    else some []

/-- `chunk_text(text, chunk_size, overlap)`: returns `[text]` whole when it
fits in one chunk, otherwise runs the sliding-window loop.  `none` means the
loop runs for more than `fuel` iterations. -/
def chunk_text (fuel : Nat) (text : List Char) (size ov : Int) : Option (List (List Char)) :=
  if (text.length : Int) ≤ size then some [text] else chunkLoop text size ov fuel 0

/-- Module-level configuration `CHUNK_SIZE = 500`, `CHUNK_OVERLAP = 50`. -/
def CHUNK_SIZE : Int := 500
def CHUNK_OVERLAP : Int := 50

/-- The concatenation of the "non-overlapping portions" of a chunk list:
the first chunk whole, every later chunk minus its first `overlap`
characters (the part it shares with its predecessor). -/
def reconstructChunks (ov : Int) : List (List Char) → List Char
  | [] => []
  | c :: rest => c ++ (rest.map (fun k => k.drop ov.toNat)).flatten

/-! ### Lemmas about the Python primitives -/

lemma mem_of_mem_pySlice (l : List Char) (a b : Int) (c : Char)
    (h : c ∈ pySlice l a b) : c ∈ l :=
  List.Sublist.mem h ((List.drop_sublist _ _).trans (List.take_sublist _ _))

lemma pyRfind_of_not_mem (l : List Char) (c : Char) (h : c ∉ l) :
    pyRfind l c = -1 := by
  induction l with
  | nil => rfl
  | cons x xs ih =>
    have hx : ¬(x = c) := fun he => h (by simp [he])
    have hxs : c ∉ xs := fun hm => h (List.mem_cons_of_mem _ hm)
    simp [pyRfind, ih hxs, hx]

lemma dropWhile_eq_self_of_false (p : Char → Bool) (l : List Char)
    (h : ∀ c ∈ l, p c = false) : l.dropWhile p = l := by
  cases l with
  | nil => rfl
  | cons x xs => simp [List.dropWhile, h x (by simp)]

lemma pyStrip_eq_self (l : List Char) (h : ∀ c ∈ l, pyIsSpace c = false) :
    pyStrip l = l := by
  unfold pyStrip
  rw [dropWhile_eq_self_of_false _ _ h,
    dropWhile_eq_self_of_false _ _ (fun c hc => h c (List.mem_reverse.mp hc))]
  exact List.reverse_reverse l

lemma take_min_length (l : List Char) (k : Nat) : l.take (min k l.length) = l.take k := by
  rcases le_total k l.length with h | h
  · rw [min_eq_left h]
  · rw [min_eq_right h, List.take_of_length_le h, List.take_of_length_le le_rfl]

lemma drop_min_of_le (xs : List Char) (n k : Nat) (h : xs.length ≤ n) :
    xs.drop (min k n) = xs.drop k := by
  rcases le_total k n with h1 | h1
  · rw [min_eq_left h1]
  · rw [min_eq_right h1, List.drop_eq_nil_of_le h,
      List.drop_eq_nil_of_le (le_trans h h1)]

lemma pySlice_of_nonneg (l : List Char) (a b : Int) (ha : 0 ≤ a) (hb : 0 ≤ b) :
    pySlice l a b = (l.take b.toNat).drop a.toNat := by
  unfold pySlice pySliceIdx
  rw [if_neg (by omega), if_neg (by omega), take_min_length,
    drop_min_of_le _ _ _ (by rw [List.length_take]; exact min_le_right _ _)]

lemma pySlice_append_drop (l : List Char) (a b : Int) (ha : 0 ≤ a) (hab : a ≤ b) :
    pySlice l a b ++ l.drop b.toNat = l.drop a.toNat := by
  rw [pySlice_of_nonneg l a b ha (le_trans ha hab)]
  rcases le_total b.toNat l.length with h | h
  · conv_rhs => rw [← List.take_append_drop b.toNat l]
    rw [List.drop_append_of_le_length (by simp [List.length_take]; omega)]
  · rw [List.take_of_length_le h, List.drop_eq_nil_of_le h, List.append_nil]

lemma drop_pySlice (l : List Char) (a b : Int) (k : Nat) (ha : 0 ≤ a) (hb : 0 ≤ b) :
    (pySlice l a b).drop k = pySlice l (a + (k : Int)) b := by
  rw [pySlice_of_nonneg l a b ha hb, pySlice_of_nonneg l _ b (by omega) hb,
    List.drop_drop]
  congr 1
  omega

/-! ### Behaviour of `chunk_text` on whitespace-free text -/

lemma chunkEnd_of_noSpace (text : List Char) (size start : Int)
    (hws : ∀ c ∈ text, pyIsSpace c = false) :
    chunkEnd text size start = start + size := by
  have hsp : pyRfind (pySlice text start (start + size)) ' ' = -1 := by
    apply pyRfind_of_not_mem
    intro hm
    have := hws ' ' (mem_of_mem_pySlice _ _ _ _ hm)
    simp [pyIsSpace] at this
  simp [chunkEnd, hsp]

lemma chunkLoop_flatten_of_noSpace (text : List Char) (size ov : Int)
    (hws : ∀ c ∈ text, pyIsSpace c = false) (hov : 0 ≤ ov) (hlt : ov < size) :
    ∀ (fuel : Nat) (start : Int), 0 ≤ start →
      (text.length : Int) - start ≤ (fuel : Int) →
      ∃ chunks, chunkLoop text size ov fuel start = some chunks ∧
        (chunks.map (fun k => k.drop ov.toNat)).flatten =
          text.drop (start + ov).toNat := by
  intro fuel
  induction fuel with
  | zero =>
    intro start h0 hf
    refine ⟨[], ?_, ?_⟩
    · simp only [chunkLoop]
      rw [if_neg (by omega)]
    · simp only [List.map_nil, List.flatten_nil]
      exact (List.drop_eq_nil_of_le (by omega)).symm
  | succ n ih =>
    intro start h0 hf
    by_cases hs : start < (text.length : Int)
    · have he : chunkEnd text size start = start + size :=
        chunkEnd_of_noSpace text size start hws
      obtain ⟨rest, hr, hrf⟩ := ih (start + size - ov) (by omega) (by omega)
      refine ⟨pyStrip (pySlice text start (start + size)) :: rest, ?_, ?_⟩
      · simp only [chunkLoop, he]
        rw [if_pos hs, hr]
        rfl
      · simp only [List.map_cons, List.flatten_cons]
        rw [pyStrip_eq_self _ (fun c hc => hws c (mem_of_mem_pySlice _ _ _ _ hc)),
          hrf, drop_pySlice text start (start + size) ov.toNat h0 (by omega),
          Int.toNat_of_nonneg hov]
        have h1 : start + size - ov + ov = start + size := by ring
        rw [h1]
        exact pySlice_append_drop text (start + ov) (start + size) (by omega) (by omega)
    · refine ⟨[], ?_, ?_⟩
      · simp only [chunkLoop]
        rw [if_neg hs]
      · simp only [List.map_nil, List.flatten_nil]
        exact (List.drop_eq_nil_of_le (by omega)).symm

/-! ### Claim theorems about `chunk_text` -/

/-- C4: the claim says `chunk_text` always advances and rejects
`overlap >= size` with `InvalidChunkConfig`.  The code contains no such
guard: on `text = "ab"`, `chunk_size = 1`, `overlap = 1` the window start
is recomputed as `end - overlap = 1 - 1 = 0` every iteration, so the
`while` loop never terminates — for every fuel bound the fueled loop is
exhausted. -/
theorem chunk_text_diverges_when_overlap_ge_size :
    ∀ fuel : Nat, chunk_text fuel ['a', 'b'] 1 1 = none := by
  have key : ∀ f : Nat, chunkLoop ['a', 'b'] 1 1 f 0 = none := by
    intro f
    induction f with
    | zero => decide
    | succ n ih =>
      have he : chunkEnd ['a', 'b'] 1 0 = 1 := by decide
      simp only [chunkLoop, he]
      norm_num [ih]
  intro fuel
  unfold chunk_text
  rw [if_neg (by decide)]
  exact key fuel

/-- C4 witness: the divergence theorem instantiated at the concrete fuel
bound 7. -/
theorem chunk_text_diverges_when_overlap_ge_size_witness :
    chunk_text 7 ['a', 'b'] 1 1 = none :=
  chunk_text_diverges_when_overlap_ge_size 7

/-- C7, counterexample: on `T = "ab cd"` with the valid configuration
`size = 4 > overlap = 0`, the code backtracks the first window to the last
space and strips each chunk, producing `["ab", "cd"]`; concatenating the
non-overlapping portions gives `"abcd" ≠ "ab cd"` — the space is dropped,
refuting the round-trip claim as stated. -/
theorem chunk_text_reconstruction_fails_on_space :
    chunk_text 5 ['a', 'b', ' ', 'c', 'd'] 4 0 = some [['a', 'b'], ['c', 'd']] ∧
    reconstructChunks 0 [['a', 'b'], ['c', 'd']] ≠ ['a', 'b', ' ', 'c', 'd'] := by
  constructor
  · decide
  · decide

/-- C7 (amended): for every text containing no whitespace character (so the
space-backtracking and the final `strip()` are no-ops) and every valid
configuration `size > overlap ≥ 0`, `chunk_text` terminates within
`length text` loop iterations and concatenating the non-overlapping
portions of its chunks reconstructs the text exactly. -/
theorem chunk_text_reconstructs_whitespace_free (text : List Char) (size ov : Int)
    (hws : ∀ c ∈ text, pyIsSpace c = false) (hov : 0 ≤ ov) (hlt : ov < size) :
    ∃ chunks, chunk_text text.length text size ov = some chunks ∧
      reconstructChunks ov chunks = text := by
  unfold chunk_text
  by_cases hfit : (text.length : Int) ≤ size
  · rw [if_pos hfit]
    exact ⟨[text], rfl, by simp [reconstructChunks]⟩
  · rw [if_neg hfit]
    obtain ⟨n, hn⟩ : ∃ n, text.length = n + 1 := ⟨text.length - 1, by omega⟩
    rw [hn]
    have he : chunkEnd text size 0 = size := by
      rw [chunkEnd_of_noSpace text size 0 hws]; ring
    obtain ⟨rest, hr, hrf⟩ :=
      chunkLoop_flatten_of_noSpace text size ov hws hov hlt n (size - ov)
        (by omega) (by omega)
    refine ⟨pyStrip (pySlice text 0 size) :: rest, ?_, ?_⟩
    · simp only [chunkLoop, he]
      rw [if_pos (by omega), hr]
      rfl
    · simp only [reconstructChunks]
      rw [pyStrip_eq_self _ (fun c hc => hws c (mem_of_mem_pySlice _ _ _ _ hc)),
        hrf]
      have h1 : size - ov + ov = size := by ring
      rw [h1, pySlice_of_nonneg text 0 size le_rfl (by omega)]
      simp [List.take_append_drop size.toNat text]

/-- C7 witness: the amended round-trip theorem applied to the concrete
whitespace-free text `"abcdefgh"` with `size = 3`, `overlap = 1`. -/
theorem chunk_text_reconstructs_whitespace_free_witness :
    ∃ chunks,
      chunk_text (['a', 'b', 'c', 'd', 'e', 'f', 'g', 'h'].length)
        ['a', 'b', 'c', 'd', 'e', 'f', 'g', 'h'] 3 1 = some chunks ∧
      reconstructChunks 1 chunks = ['a', 'b', 'c', 'd', 'e', 'f', 'g', 'h'] :=
  chunk_text_reconstructs_whitespace_free ['a', 'b', 'c', 'd', 'e', 'f', 'g', 'h']
    3 1 (by decide) (by decide) (by decide)

/-! ### Python dictionaries and the Qdrant store

A Python `dict` is embedded as an insertion-ordered association list:
assigning to an existing key replaces its value in place, assigning to a
fresh key appends.  The dict literal
`{"user_id": ..., "file_id": ..., "chunk_index": i, "text": chunk, **(metadata or {})}`
of `upsert_document` (rag_service.py lines 148-154) evaluates its entries
left to right, so the spread entries are assigned last. -/

inductive Val where
  | s : String → Val
  | n : Int → Val
deriving DecidableEq, Repr

def dictSet (d : List (String × Val)) (k : String) (v : Val) : List (String × Val) :=
  if d.any (fun p => p.1 = k) then
    d.map (fun p => if p.1 = k then (k, v) else p)
  else d ++ [(k, v)]

def dictGet (d : List (String × Val)) (k : String) : Option Val :=
  (d.find? (fun p => p.1 = k)).map (fun p => p.2)

/-- The payload dict built for chunk number `chunk_index` in
`upsert_document`: the four reserved entries first, then the caller
metadata spread over them. -/
def buildPayload (user_id file_id : String) (chunk_index : Int) (chunk : List Char)
    (metadata : List (String × Val)) : List (String × Val) :=
  metadata.foldl (fun d kv => dictSet d kv.1 kv.2)
    [("user_id", Val.s user_id), ("file_id", Val.s file_id),
     ("chunk_index", Val.n chunk_index), ("text", Val.s (String.mk chunk))]

/-- A point stored in the vector index: generated id, embedding vector,
payload map. -/
structure QPoint where
  pid : String
  vector : List Int
  payload : List (String × Val)
deriving DecidableEq, Repr

/-- `upsert_document(qdrant_client, user_id, file_id, text, metadata)`
(rag_service.py lines 112-179): chunk with the module defaults
`CHUNK_SIZE = 500`, `CHUNK_OVERLAP = 50`, embed each chunk, build one point
per chunk with a fresh generated id, and upsert.  The embedding model and
the uuid generator are external and passed in; fresh uuids never collide
with stored ids, so the Qdrant upsert appends.  Returns the new store and
the reported `chunk_count`. -/
def upsert_document (store : List QPoint) (embed : List Char → List Int)
    (idGen : Nat → String) (user_id file_id : String) (text : List Char)
    (metadata : List (String × Val)) (fuel : Nat) : Option (List QPoint × Nat) :=
  (chunk_text fuel text CHUNK_SIZE CHUNK_OVERLAP).map (fun chunks =>
    (store ++ chunks.enum.map (fun ic =>
      ⟨idGen ic.1, embed ic.2,
       buildPayload user_id file_id (ic.1 : Int) ic.2 metadata⟩),
     chunks.length))

/-- A point satisfies a Qdrant `Filter(must=[FieldCondition(key, MatchValue(v)), ...])`
when every listed payload key holds exactly the listed value. -/
def matchesFilter (conds : List (String × Val)) (p : QPoint) : Bool :=
  conds.all (fun kv => dictGet p.payload kv.1 = some kv.2)

/-- `search_similar(qdrant_client, user_id, query, limit)` (rag_service.py
lines 182-243): the Qdrant backend keeps only the points satisfying the
server-side filter `Filter(must=[FieldCondition("user_id", MatchValue(user_id))])`,
ranks them by similarity score (the scoring function, a property of the
query vector and the index configuration, is passed in), and returns at
most `limit` points. -/
def search_similar (store : List QPoint) (score : QPoint → Int) (user_id : String)
    (limit : Nat) : List QPoint :=
  ((store.filter (matchesFilter [("user_id", Val.s user_id)])).insertionSort
    (fun a b => score b ≤ score a)).take limit

/-- The deletion filter of `delete_user_vectors` (rag_service.py lines
265-273): always the owner condition, plus the file condition when
`file_id` is truthy (Python: `if file_id:` — `None` and `""` are falsy). -/
def deleteConds (user_id : String) (file_id : Option String) : List (String × Val) :=
  [("user_id", Val.s user_id)] ++
    (match file_id with
     | some f => if f = "" then [] else [("file_id", Val.s f)]
     | none => [])

inductive QdrantErr where
  | down
deriving DecidableEq, Repr

/-- `delete_user_vectors(qdrant_client, user_id, file_id)` (rag_service.py
lines 246-288).  `deleteResult` is the outcome of the downstream
`qdrant_client.delete` call: on failure the code logs and returns `False`
(the `except` clause at lines 286-288), on success it removes every point
matching the filter and returns `True`.  The function never raises, hence
never produces `.error`. -/
def delete_user_vectors (store : List QPoint) (deleteResult : Option QdrantErr)
    (user_id : String) (file_id : Option String) :
    Except QdrantErr (List QPoint × Bool) :=
  let conds := deleteConds user_id file_id
  match deleteResult with
  | some _ => .ok (store, false)
  | none => .ok (store.filter (fun p => !(matchesFilter conds p)), true)

/-! ### Claim theorems about the vector-store operations -/

/-- C1: the dict literal of `upsert_document` spreads the caller metadata
*after* the four reserved entries, so on a key collision the caller's value
overwrites the reserved one.  Concrete failing input: owner `"alice"`
upserts file `"f1"`, text `"hi"`, with metadata `{"user_id": "mallory"}`;
the single stored point's payload carries `user_id = "mallory"`, not the
indexer-computed `"alice"` the claim requires. -/
theorem upsert_document_metadata_overwrites_reserved :
    upsert_document [] (fun _ => [0]) (fun _ => "p0") "alice" "f1" ['h', 'i']
        [("user_id", Val.s "mallory")] 0 =
      some ([⟨"p0", [0],
        [("user_id", Val.s "mallory"), ("file_id", Val.s "f1"),
         ("chunk_index", Val.n 0), ("text", Val.s "hi")]⟩], 1) ∧
    dictGet [("user_id", Val.s "mallory"), ("file_id", Val.s "f1"),
        ("chunk_index", Val.n 0), ("text", Val.s "hi")] "user_id" =
      some (Val.s "mallory") := by
  constructor
  · decide
  · decide

/-- C2: `search_similar` applies a server-side equality filter on
`user_id`, so every returned point's payload `user_id` equals the querying
owner — and therefore never equals any other owner, regardless of the
query's scoring function, the store contents, or the limit. -/
theorem search_similar_only_returns_querying_owner
    (store : List QPoint) (score : QPoint → Int) (uid : String) (limit : Nat)
    (p : QPoint) (hp : p ∈ search_similar store score uid limit) :
    dictGet p.payload "user_id" = some (Val.s uid) ∧
      ∀ other : String, other ≠ uid →
        dictGet p.payload "user_id" ≠ some (Val.s other) := by
  have hmem : p ∈ store.filter (matchesFilter [("user_id", Val.s uid)]) :=
    (List.perm_insertionSort _ _).mem_iff.mp (List.mem_of_mem_take hp)
  have hf := (List.mem_filter.mp hmem).2
  simp only [matchesFilter, List.all_cons, List.all_nil, Bool.and_true,
    decide_eq_true_eq] at hf
  refine ⟨hf, ?_⟩
  intro other hne hcon
  rw [hf] at hcon
  exact hne (by injection hcon with h; injection h with h2; exact h2.symm)

/-- C2 witness: a one-point store owned by `"A"`; the theorem applied to
the point returned by a search by `"A"`. -/
theorem search_similar_only_returns_querying_owner_witness :
    dictGet (QPoint.mk "p0" [0] [("user_id", Val.s "A")]).payload "user_id" =
        some (Val.s "A") ∧
      ∀ other : String, other ≠ "A" →
        dictGet (QPoint.mk "p0" [0] [("user_id", Val.s "A")]).payload "user_id" ≠
          some (Val.s other) :=
  search_similar_only_returns_querying_owner
    [QPoint.mk "p0" [0] [("user_id", Val.s "A")]] (fun _ => 0) "A" 5
    (QPoint.mk "p0" [0] [("user_id", Val.s "A")]) (by decide)

/-- C10, counterexample: when the downstream delete call fails, the code
catches the exception and returns `False` — the result is an ordinary
`.ok (store, false)`, not a propagated error, contradicting the claim that
every non-idempotent deletion error propagates typed to the caller. -/
theorem delete_user_vectors_swallows_backend_error :
    delete_user_vectors [QPoint.mk "p0" [0] [("user_id", Val.s "A")]]
        (some QdrantErr.down) "A" none =
      .ok ([QPoint.mk "p0" [0] [("user_id", Val.s "A")]], false) := rfl

/-- C10 (amended): deleting a non-existent owner/document pair succeeds
with zero effect (`True`, store unchanged); but a downstream deletion
failure does not propagate — the exception is swallowed and surfaced as
the degraded return value `False` with the store unchanged. -/
theorem delete_user_vectors_idempotent_and_false_on_error
    (store : List QPoint) (uid : String) (fid : Option String) (e : QdrantErr) :
    ((∀ p ∈ store, matchesFilter (deleteConds uid fid) p = false) →
        delete_user_vectors store none uid fid = .ok (store, true)) ∧
      delete_user_vectors store (some e) uid fid = .ok (store, false) := by
  constructor
  · intro hno
    have h : store.filter (fun p => !(matchesFilter (deleteConds uid fid) p)) = store :=
      List.filter_eq_self.mpr (fun a ha => by simp [hno a ha])
    simp [delete_user_vectors, h]
  · rfl

/-- C10 witness: the amended theorem applied to a store holding only a
point of owner `"B"`, deleting owner `"A"`: both conjuncts at concrete
inputs. -/
theorem delete_user_vectors_idempotent_and_false_on_error_witness :
    delete_user_vectors [QPoint.mk "p0" [0] [("user_id", Val.s "B")]] none "A"
        none =
      .ok ([QPoint.mk "p0" [0] [("user_id", Val.s "B")]], true) :=
  (delete_user_vectors_idempotent_and_false_on_error
    [QPoint.mk "p0" [0] [("user_id", Val.s "B")]] "A" none QdrantErr.down).1
    (by decide)

/-! ### The token-verification core (jwt_verify.py)

The JWKS fetch, the wall clock, the configured issuer and audience are
external inputs.  `fetchResult` is the outcome of `fetch_jwks()` (lines
47-69): either the parsed key set, or the `HTTPException(500, "Failed to
fetch authentication keys")` it raises on any network/parse failure.
Signatures are symbolic: a `Sig` records which algorithm and which key
material produced it, and the signature check of the `jwt` library
succeeds exactly when both match the verifying algorithm and key. -/

structure HTTPExc where
  status : Nat
  detail : String
deriving DecidableEq, Repr

/-- One record of the JSON Web Key set: `kid`, optional `alg`, and the
algorithm-specific key material (abstracted to one string). -/
structure Jwk where
  kid : String
  alg : Option String
  material : String
deriving DecidableEq, Repr

inductive KeyKind where
  | rsa
  | ec
deriving DecidableEq, Repr

/-- A public key materialized from a JWK: `RSAAlgorithm.from_jwk` yields an
RSA key object, `ECAlgorithm.from_jwk` an elliptic-curve key object. -/
structure PubKey where
  kind : KeyKind
  material : String
deriving DecidableEq, Repr

structure JwtHeader where
  kid : Option String
  alg : Option String
deriving DecidableEq, Repr

structure JwtPayload where
  sub : Option String
  iss : Option String
  aud : Option String
  exp : Option Int
deriving DecidableEq, Repr

/-- Symbolic signature: the algorithm and key material that produced it. -/
structure Sig where
  alg : String
  keyMaterial : String
deriving DecidableEq, Repr

structure Token where
  header : JwtHeader
  payload : JwtPayload
  sig : Sig
deriving DecidableEq, Repr

/-- A presented bearer token: either three well-formed segments, or a
string whose header segment does not parse. -/
inductive RawToken where
  | garbage : String → RawToken
  | wellFormed : Token → RawToken
deriving DecidableEq, Repr

/-- `jwt.get_unverified_header(token)`: raises `DecodeError` (`none`) when
the header cannot be parsed. -/
def getUnverifiedHeader : RawToken → Option JwtHeader
  | .garbage _ => none
  | .wellFormed t => some t.header

/-- `str.startswith`, on the underlying character lists. -/
def charsStartWith : List Char → List Char → Bool
  | _, [] => true
  | [], _ :: _ => false
  | c :: cs, p :: ps => p = c && charsStartWith cs ps

/-- Python `a.startswith(p)` for strings. -/
def strStartsWith (a p : String) : Bool := charsStartWith a.data p.data

/-- The `if alg.startswith("RS") ... elif alg.startswith("ES") ... else`
dispatch of `get_signing_key` (jwt_verify.py lines 104-116): which kind of
public key a JWK with the given `alg` tag is materialized into, `none` for
an unsupported family. -/
def jwkKeyKind (alg : String) : Option KeyKind :=
  if strStartsWith alg "RS" then some KeyKind.rsa
  else if strStartsWith alg "ES" then some KeyKind.ec
  else none

/-- `get_signing_key(token)` (jwt_verify.py lines 72-123).  Every failure
inside its `try` — an unparsable header, a missing or empty `kid`, the
`HTTPException` raised by `fetch_jwks`, an unsupported key algorithm, or
no matching `kid` — ends in `return None` (the body returns `None`
directly or the blanket `except Exception` catches and returns `None`).
The key's own `alg` field (default `"RS256"`), not the token header's,
selects the RSA / EC conversion. -/
def get_signing_key (fetchResult : Except HTTPExc (List Jwk)) (raw : RawToken) :
    Option PubKey :=
  match getUnverifiedHeader raw with
  | none => none
  | some header =>
    match header.kid with
    | none => none
    | some kid =>
      if kid = "" then none
      else
        match fetchResult with
        | .error _ => none
        | .ok jwks =>
          match jwks.find? (fun k => k.kid = kid) with
          | none => none
          | some key =>
            match jwkKeyKind (key.alg.getD "RS256") with
            | some kind => some ⟨kind, key.material⟩
            | none => none

/-- The typed exceptions `jwt.decode` can raise, as distinguished by the
`except` ladder of `verify_jwt`. -/
inductive JwtErr where
  | invalidAlgorithm
  | invalidKey
  | badSignature
  | expired
  | badIssuer
  | badAudience
  | missingClaim
deriving DecidableEq, Repr

/-- The audience and issuer claim validation of `jwt.decode` (with
`verify_aud` and `verify_iss` on and both expected values supplied): a
missing claim raises `MissingRequiredClaimError`, a mismatch raises
`InvalidAudienceError` / `InvalidIssuerError`. -/
def validateAudIss (t : Token) (issuer audience : String) :
    Except JwtErr JwtPayload :=
  match t.payload.aud with
  | none => .error .missingClaim
  | some au =>
    if au = audience then
      match t.payload.iss with
      | none => .error .missingClaim
      | some i0 => if i0 = issuer then .ok t.payload else .error .badIssuer
    else .error .badAudience

/-- `jwt.decode(token, key, algorithms, audience, issuer, options)` with
all four verify options on, as called at jwt_verify.py lines 166-178.
The header's `alg` must be present and listed in `algorithms`
(`InvalidAlgorithmError` otherwise); the algorithm family must accept the
key object handed to it — `RS*` requires an RSA public key and `ES*` an EC
public key, while `HS*`, `none` and unregistered algorithms reject the
asymmetric key object (`InvalidKeyError` / `TypeError`, both reaching the
caller's blanket `except`); then the signature, the `exp` claim (checked
only when present), the audience and the issuer are verified in order. -/
def pyJwtDecode (t : Token) (key : PubKey) (algorithms : List String)
    (now : Int) (issuer audience : String) : Except JwtErr JwtPayload :=
  match t.header.alg with
  | none => .error .invalidAlgorithm
  | some a =>
    if a ∈ algorithms then
      if (strStartsWith a "RS" ∧ key.kind = KeyKind.rsa) ∨
          (strStartsWith a "ES" ∧ key.kind = KeyKind.ec) then
        if t.sig.alg = a ∧ t.sig.keyMaterial = key.material then
          match t.payload.exp with
          | some e =>
            if e < now then .error .expired
            else validateAudIss t issuer audience
          | none => validateAudIss t issuer audience
        else .error .badSignature
      else .error .invalidKey
    else .error .invalidAlgorithm

/-- The `except` ladder of `verify_jwt` (jwt_verify.py lines 190-219).
`ExpiredSignatureError`, `InvalidIssuerError` and `InvalidAudienceError`
have dedicated clauses; the remaining `InvalidTokenError` subclasses
(bad signature, bad algorithm, missing required claim) map to
`"Invalid token"`; `InvalidKeyError` / `TypeError` are not
`InvalidTokenError` subclasses and fall through to the blanket
`except Exception`, which answers `"Token verification failed"`. -/
def mapJwtErr : JwtErr → HTTPExc
  | .expired => ⟨401, "Token has expired"⟩
  | .badIssuer => ⟨401, "Invalid token issuer"⟩
  | .badAudience => ⟨401, "Invalid token audience"⟩
  | .badSignature => ⟨401, "Invalid token"⟩
  | .invalidAlgorithm => ⟨401, "Invalid token"⟩
  | .missingClaim => ⟨401, "Invalid token"⟩
  | .invalidKey => ⟨401, "Token verification failed"⟩

/-- `verify_jwt(token)` (jwt_verify.py lines 126-219).  Note that the
`HTTPException(401, ...)` values raised *inside* the `try` block — the
"signing key not found" of line 151 and the "missing 'sub' claim" of line
182 — are themselves caught by the blanket `except Exception` of line 214
and replaced by `HTTPException(401, "Token verification failed")`.  The
`algorithms=[algorithm]` argument of `jwt.decode` is the token header's
own declared algorithm (default `"RS256"`), line 161.  The arm matching a
garbage token with a signing key is unreachable: `get_signing_key` returns
`None` whenever the header does not parse. -/
def verify_jwt (configured : Bool) (fetchResult : Except HTTPExc (List Jwk))
    (now : Int) (issuer audience : String) (raw : RawToken) :
    Except HTTPExc JwtPayload :=
  if configured = false then
    .error ⟨500, "Supabase not configured. Please set SUPABASE_URL in environment."⟩
  else
    match get_signing_key fetchResult raw, raw with
    | none, _ => .error ⟨401, "Token verification failed"⟩
    | some _, .garbage _ => .error ⟨401, "Token verification failed"⟩
    | some signingKey, .wellFormed t =>
      match pyJwtDecode t signingKey [t.header.alg.getD "RS256"] now issuer audience with
      | .error err => .error (mapJwtErr err)
      | .ok payload =>
        match payload.sub with
        | none => .error ⟨401, "Token verification failed"⟩
        | some _ => .ok payload

/-- `get_current_user` (jwt_verify.py lines 222-245): verify, then extract
`payload.get("sub")`; `if not user_id:` rejects both a missing and an empty
subject with 401 "Invalid token: missing user identifier". -/
def get_current_user (configured : Bool) (fetchResult : Except HTTPExc (List Jwk))
    (now : Int) (issuer audience : String) (raw : RawToken) :
    Except HTTPExc String :=
  match verify_jwt configured fetchResult now issuer audience raw with
  | .error e => .error e
  | .ok payload =>
    match payload.sub with
    | none => .error ⟨401, "Invalid token: missing user identifier"⟩
    | some uid =>
      if uid = "" then .error ⟨401, "Invalid token: missing user identifier"⟩
      else .ok uid

/-! ### Lemmas about the verifier -/

lemma jwkKeyKind_cases (a : String) (kind : KeyKind) (h : jwkKeyKind a = some kind) :
    (strStartsWith a "RS" ∧ kind = KeyKind.rsa) ∨
      (strStartsWith a "ES" ∧ kind = KeyKind.ec) := by
  unfold jwkKeyKind at h
  split_ifs at h with h1 h2
  · exact Or.inl ⟨h1, by cases h; rfl⟩
  · exact Or.inr ⟨h2, by cases h; rfl⟩

lemma validateAudIss_ok (t : Token) (issuer audience : String) (p : JwtPayload)
    (h : validateAudIss t issuer audience = .ok p) : p = t.payload := by
  unfold validateAudIss at h
  repeat' split at h
  all_goals simp_all

lemma pyJwtDecode_ok (t : Token) (key : PubKey) (algs : List String)
    (now : Int) (issuer audience : String) (p : JwtPayload)
    (h : pyJwtDecode t key algs now issuer audience = .ok p) :
    p = t.payload ∧ ∃ a, t.header.alg = some a ∧ a ∈ algs ∧ t.sig.alg = a ∧
      ((strStartsWith a "RS" ∧ key.kind = KeyKind.rsa) ∨
        (strStartsWith a "ES" ∧ key.kind = KeyKind.ec)) := by
  unfold pyJwtDecode at h
  rcases ha : t.header.alg with _ | a <;> simp only [ha] at h
  · simp at h
  · by_cases hmem : a ∈ algs
    · rw [if_pos hmem] at h
      by_cases hfam : (strStartsWith a "RS" ∧ key.kind = KeyKind.rsa) ∨
          (strStartsWith a "ES" ∧ key.kind = KeyKind.ec)
      · rw [if_pos hfam] at h
        by_cases hsig : t.sig.alg = a ∧ t.sig.keyMaterial = key.material
        · rw [if_pos hsig] at h
          refine ⟨?_, a, rfl, hmem, hsig.1, hfam⟩
          rcases he : t.payload.exp with _ | e <;> simp only [he] at h
          · exact validateAudIss_ok _ _ _ _ h
          · by_cases hne : e < now
            · rw [if_pos hne] at h; simp at h
            · rw [if_neg hne] at h; exact validateAudIss_ok _ _ _ _ h
        · rw [if_neg hsig] at h; simp at h
      · rw [if_neg hfam] at h; simp at h
    · rw [if_neg hmem] at h; simp at h

lemma verify_jwt_key_none (f : Except HTTPExc (List Jwk)) (now : Int)
    (issuer audience : String) (raw : RawToken)
    (hk : get_signing_key f raw = none) :
    verify_jwt true f now issuer audience raw =
      .error ⟨401, "Token verification failed"⟩ := by
  unfold verify_jwt
  rw [if_neg (by simp), hk]

lemma verify_jwt_key_some (f : Except HTTPExc (List Jwk)) (now : Int)
    (issuer audience : String) (t : Token) (k : PubKey)
    (hk : get_signing_key f (.wellFormed t) = some k) :
    verify_jwt true f now issuer audience (.wellFormed t) =
      (match pyJwtDecode t k [t.header.alg.getD "RS256"] now issuer audience with
       | .error err => .error (mapJwtErr err)
       | .ok payload =>
         match payload.sub with
         | none => .error ⟨401, "Token verification failed"⟩
         | some _ => .ok payload) := by
  unfold verify_jwt
  rw [if_neg (by simp), hk]

lemma verify_jwt_error_status (f : Except HTTPExc (List Jwk)) (now : Int)
    (issuer audience : String) (raw : RawToken) (e : HTTPExc)
    (h : verify_jwt true f now issuer audience raw = .error e) :
    e.status = 401 := by
  rcases hk : get_signing_key f raw with _ | k
  · rw [verify_jwt_key_none f now issuer audience raw hk] at h
    cases h
    rfl
  · rcases raw with s | t
    · exact absurd hk (by simp [get_signing_key, getUnverifiedHeader])
    · rw [verify_jwt_key_some f now issuer audience t k hk] at h
      rcases hd : pyJwtDecode t k [t.header.alg.getD "RS256"] now issuer audience
          with err | payload <;> simp only [hd] at h
      · cases h
        cases err <;> rfl
      · rcases hs : payload.sub with _ | s <;> simp only [hs] at h
        · cases h
          rfl
        · simp at h

lemma verify_jwt_ok_sub (cfg : Bool) (f : Except HTTPExc (List Jwk)) (now : Int)
    (issuer audience : String) (t : Token) (p : JwtPayload)
    (h : verify_jwt cfg f now issuer audience (.wellFormed t) = .ok p) :
    p = t.payload ∧ ∃ s, p.sub = some s := by
  rcases cfg with _ | _
  · exact absurd h (by simp [verify_jwt])
  · rcases hk : get_signing_key f (.wellFormed t) with _ | k
    · rw [verify_jwt_key_none f now issuer audience _ hk] at h
      simp at h
    · rw [verify_jwt_key_some f now issuer audience t k hk] at h
      rcases hd : pyJwtDecode t k [t.header.alg.getD "RS256"] now issuer audience
          with err | payload <;> simp only [hd] at h
      · simp at h
      · rcases hs : payload.sub with _ | s <;> simp only [hs] at h
        · simp at h
        · have hp : payload = p := by simpa using h
          exact ⟨by rw [← hp, (pyJwtDecode_ok _ _ _ _ _ _ _ hd).1],
            s, by rw [← hp, hs]⟩

/-! ### Claim theorems about the verifier -/

/-- C3: `jwt.decode` is invoked with `algorithms=[algorithm]` where
`algorithm` is the token header's own declared value, so whenever
verification succeeds the signature was checked under the header's
algorithm; and because `get_signing_key` only ever materializes RSA or EC
keys and each family accepts only its own key type, success forces the
declared algorithm into the `RS*` / `ES*` families — any token declaring
an algorithm outside them is rejected. -/
theorem verify_jwt_header_alg_in_families
    (cfg : Bool) (f : Except HTTPExc (List Jwk)) (now : Int)
    (issuer audience : String) (t : Token) (p : JwtPayload)
    (h : verify_jwt cfg f now issuer audience (.wellFormed t) = .ok p) :
    ∃ a, t.header.alg = some a ∧ t.sig.alg = a ∧
      (strStartsWith a "RS" ∨ strStartsWith a "ES") := by
  rcases cfg with _ | _
  · exact absurd h (by simp [verify_jwt])
  · rcases hk : get_signing_key f (.wellFormed t) with _ | k
    · rw [verify_jwt_key_none f now issuer audience _ hk] at h
      simp at h
    · rw [verify_jwt_key_some f now issuer audience t k hk] at h
      rcases hd : pyJwtDecode t k [t.header.alg.getD "RS256"] now issuer audience
          with err | payload <;> simp only [hd] at h
      · simp at h
      · obtain ⟨-, a, ha, -, hsig, hfam⟩ := pyJwtDecode_ok _ _ _ _ _ _ _ hd
        exact ⟨a, ha, hsig, hfam.imp (fun x => x.1) (fun x => x.1)⟩

/-- C3 witness: the theorem applied to a concrete RS256 token that
verifies successfully. -/
theorem verify_jwt_header_alg_in_families_witness :
    ∃ a, (Token.mk ⟨some "k1", some "RS256"⟩
        ⟨some "u", some "I", some "A", some 100⟩ ⟨"RS256", "m"⟩).header.alg =
          some a ∧
      (Token.mk ⟨some "k1", some "RS256"⟩
        ⟨some "u", some "I", some "A", some 100⟩ ⟨"RS256", "m"⟩).sig.alg = a ∧
      (strStartsWith a "RS" ∨ strStartsWith a "ES") :=
  verify_jwt_header_alg_in_families true (.ok [⟨"k1", some "RS256", "m"⟩]) 0 "I" "A"
    (Token.mk ⟨some "k1", some "RS256"⟩ ⟨some "u", some "I", some "A", some 100⟩
      ⟨"RS256", "m"⟩)
    ⟨some "u", some "I", some "A", some 100⟩ rfl

/-- C5: when the JWKS fetch fails, `fetch_jwks` raises
`HTTPException(500, "Failed to fetch authentication keys")`, but the
blanket `except Exception` of `get_signing_key` swallows it and returns
`None`, so `verify_jwt` surfaces an ordinary 401 — the 500 never reaches
the caller, contradicting the claim that a key-fetch failure surfaces as a
5xx-equivalent. -/
theorem verify_jwt_fetch_failure_surfaces_401 :
    verify_jwt true (.error ⟨500, "Failed to fetch authentication keys"⟩) 0 "I" "A"
        (.wellFormed (Token.mk ⟨some "k1", some "RS256"⟩
          ⟨some "u", some "I", some "A", some 100⟩ ⟨"RS256", "m"⟩)) =
      .error ⟨401, "Token verification failed"⟩ := rfl

/-- C6: for a token whose `kid` resolves in the fetched key set to a
supported (RSA / EC) key, whose header algorithm equals the key's, whose
signature was produced by that key under that algorithm, and whose expiry,
issuer, audience and non-empty subject are all correct, `get_current_user`
returns exactly the token's `sub` claim. -/
theorem get_current_user_returns_sub
    (jwks : List Jwk) (now : Int) (issuer audience : String) (t : Token)
    (k : String) (jwk : Jwk) (kind : KeyKind) (s : String) (e : Int)
    (hkid : t.header.kid = some k) (hk0 : ¬k = "")
    (hfind : jwks.find? (fun j => j.kid = k) = some jwk)
    (hkind : jwkKeyKind (jwk.alg.getD "RS256") = some kind)
    (halg : t.header.alg = some (jwk.alg.getD "RS256"))
    (hsalg : t.sig.alg = jwk.alg.getD "RS256")
    (hsmat : t.sig.keyMaterial = jwk.material)
    (hexp : t.payload.exp = some e) (hnow : ¬e < now)
    (hiss : t.payload.iss = some issuer) (haud : t.payload.aud = some audience)
    (hsub : t.payload.sub = some s) (hs0 : ¬s = "") :
    get_current_user true (.ok jwks) now issuer audience (.wellFormed t) =
      .ok s := by
  have hkey : get_signing_key (.ok jwks) (.wellFormed t) =
      some ⟨kind, jwk.material⟩ := by
    simp only [get_signing_key, getUnverifiedHeader, hkid, hfind, hkind,
      if_neg hk0]
  have hfam := jwkKeyKind_cases _ _ hkind
  have hdec : pyJwtDecode t ⟨kind, jwk.material⟩ [t.header.alg.getD "RS256"]
      now issuer audience = .ok t.payload := by
    unfold pyJwtDecode
    simp only [halg, Option.getD_some]
    rw [if_pos (by simp)]
    rw [if_pos (by simpa using hfam)]
    rw [if_pos ⟨hsalg, hsmat⟩]
    simp only [hexp]
    rw [if_neg hnow]
    unfold validateAudIss
    simp [haud, hiss]
  unfold get_current_user
  rw [verify_jwt_key_some (.ok jwks) now issuer audience t ⟨kind, jwk.material⟩ hkey]
  simp only [hdec, hsub, if_neg hs0]

/-- C6 witness: the theorem applied to a concrete valid RS256 token. -/
theorem get_current_user_returns_sub_witness :
    get_current_user true (.ok [⟨"k1", some "RS256", "m"⟩]) 0 "I" "A"
        (.wellFormed (Token.mk ⟨some "k1", some "RS256"⟩
          ⟨some "u", some "I", some "A", some 100⟩ ⟨"RS256", "m"⟩)) = .ok "u" :=
  get_current_user_returns_sub [⟨"k1", some "RS256", "m"⟩] 0 "I" "A"
    (Token.mk ⟨some "k1", some "RS256"⟩ ⟨some "u", some "I", some "A", some 100⟩
      ⟨"RS256", "m"⟩)
    "k1" ⟨"k1", some "RS256", "m"⟩ KeyKind.rsa "u" 100
    rfl (by decide) rfl rfl rfl rfl rfl rfl (by decide) rfl rfl rfl (by decide)

/-- C8, counterexample: a token whose header does not parse and a
well-formed token whose `kid` is absent from the key set produce the
*identical* outcome `HTTPException(401, "Token verification failed")` —
the code collapses the claim's two supposedly distinct failure kinds into
one observable result (the `HTTPException(401, "Unable to verify token:
signing key not found")` raised inside the `try` is itself caught by the
blanket `except Exception` and replaced). -/
theorem verify_jwt_malformed_and_unknown_kid_same_error :
    verify_jwt true (.ok [⟨"k1", some "RS256", "m"⟩]) 0 "I" "A"
        (.garbage "not-a-jwt") =
        .error ⟨401, "Token verification failed"⟩ ∧
      verify_jwt true (.ok [⟨"k1", some "RS256", "m"⟩]) 0 "I" "A"
          (.wellFormed (Token.mk ⟨some "k2", some "RS256"⟩
            ⟨some "u", some "I", some "A", some 100⟩ ⟨"RS256", "m"⟩)) =
        .error ⟨401, "Token verification failed"⟩ :=
  ⟨rfl, rfl⟩

/-- C8 (amended): both failure kinds are rejected, but with one and the
same error: every token with an unparsable header, and every well-formed
token whose key identifier is absent from the fetched key set, fails with
the single 401 `"Token verification failed"`; the code does not
distinguish `MalformedToken` from `UnknownKey` in its observable
outcome. -/
theorem verify_jwt_collapsed_malformed_unknown_kid
    (f : Except HTTPExc (List Jwk)) (now : Int) (issuer audience : String) :
    (∀ s, verify_jwt true f now issuer audience (.garbage s) =
        .error ⟨401, "Token verification failed"⟩) ∧
      ∀ (jwks : List Jwk) (t : Token) (k : String), f = .ok jwks →
        t.header.kid = some k → jwks.find? (fun j => j.kid = k) = none →
        verify_jwt true f now issuer audience (.wellFormed t) =
          .error ⟨401, "Token verification failed"⟩ := by
  constructor
  · intro s
    exact verify_jwt_key_none f now issuer audience _ rfl
  · intro jwks t k hf hkid hfind
    subst hf
    apply verify_jwt_key_none
    simp only [get_signing_key, getUnverifiedHeader, hkid, hfind]
    split_ifs <;> rfl

/-- C8 witness: the amended theorem applied to an empty key set and a
concrete token with key identifier `"kX"`. -/
theorem verify_jwt_collapsed_malformed_unknown_kid_witness :
    verify_jwt true (.ok []) 0 "I" "A"
        (.wellFormed (Token.mk ⟨some "kX", some "RS256"⟩
          ⟨some "u", some "I", some "A", some 100⟩ ⟨"RS256", "m"⟩)) =
      .error ⟨401, "Token verification failed"⟩ :=
  (verify_jwt_collapsed_malformed_unknown_kid (.ok []) 0 "I" "A").2 []
    (Token.mk ⟨some "kX", some "RS256"⟩ ⟨some "u", some "I", some "A", some 100⟩
      ⟨"RS256", "m"⟩)
    "kX" rfl rfl rfl

/-- C9: a token whose payload lacks a `sub` claim, or carries the empty
string, is always rejected with a 401 (the missing-`sub` check inside
`verify_jwt` and the `if not user_id` check of `get_current_user`), and
`get_current_user` never returns an empty owner identifier. -/
theorem get_current_user_requires_nonempty_sub
    (f : Except HTTPExc (List Jwk)) (now : Int) (issuer audience : String) :
    (∀ t : Token, t.payload.sub = none ∨ t.payload.sub = some "" →
        ∃ e, get_current_user true f now issuer audience (.wellFormed t) =
            .error e ∧ e.status = 401) ∧
      ∀ (raw : RawToken) (uid : String),
        get_current_user true f now issuer audience raw = .ok uid → ¬uid = "" := by
  constructor
  · intro t hsub
    rcases hv : verify_jwt true f now issuer audience (.wellFormed t) with e | p
    · refine ⟨e, ?_, verify_jwt_error_status f now issuer audience _ e hv⟩
      simp [get_current_user, hv]
    · obtain ⟨hp, s, hs⟩ := verify_jwt_ok_sub true f now issuer audience t p hv
      rcases hsub with h0 | h0
      · rw [hp, h0] at hs
        simp at hs
      · refine ⟨⟨401, "Invalid token: missing user identifier"⟩, ?_, rfl⟩
        have hs0 : p.sub = some "" := by rw [hp, h0]
        simp [get_current_user, hv, hs0]
  · intro raw uid h
    unfold get_current_user at h
    rcases hv : verify_jwt true f now issuer audience raw with e | p <;>
      simp only [hv] at h
    · simp at h
    · rcases hs : p.sub with _ | u <;> simp only [hs] at h
      · simp at h
      · by_cases hu : u = ""
        · rw [if_pos hu] at h
          simp at h
        · rw [if_neg hu] at h
          have huid : u = uid := by simpa using h
          rw [← huid]
          exact hu

/-- C9 witness: the theorem's first conjunct applied to a concrete token
with no `sub` claim. -/
theorem get_current_user_requires_nonempty_sub_witness :
    ∃ e, get_current_user true (.ok [⟨"k1", some "RS256", "m"⟩]) 0 "I" "A"
        (.wellFormed (Token.mk ⟨some "k1", some "RS256"⟩
          ⟨none, some "I", some "A", some 100⟩ ⟨"RS256", "m"⟩)) =
        .error e ∧ e.status = 401 :=
  (get_current_user_requires_nonempty_sub (.ok [⟨"k1", some "RS256", "m"⟩])
    0 "I" "A").1
    (Token.mk ⟨some "k1", some "RS256"⟩ ⟨none, some "I", some "A", some 100⟩
      ⟨"RS256", "m"⟩)
    (Or.inl rfl)

end MMChat
